import Mathlib

/-
Verification of the SIP door-intercom core against its specification.

The definitions below are a shallow embedding of the Python sources:
  src/number_matcher.py   (NumberMatcher: load_patterns, normalize_number, is_match, get_patterns)
  src/api_client.py       (APIClient: _fetch, _extract_numbers, get_numbers, get_status)
  src/gpio_handler.py     (GPIOHandler: activate, _activation_worker)
  src/sip_handler_pjsip.py (SIPHandlerPJSIP: _handle_incoming_call_sync, get_stats)
Strings are modelled as Lean String / List Char; Python ints as Nat or Int;
fallible shapes as Option; the Python regular expressions compiled by
load_patterns are embedded as the equivalent anchored glob matcher.
-/

namespace SipSpec

/-! ## NumberMatcher (src/number_matcher.py) -/

/-- Characters kept by the stripping step of normalize_number: the source runs
re.sub of the class of characters that are neither a digit nor a plus sign,
replacing them with the empty string, i.e. it keeps digits and every plus
sign. -/
def keepChar (c : Char) : Bool := c.isDigit || c == '+'

/-- The digit characters accepted as the second character of a UK domestic
number, mirroring the membership test of the source on the string of the nine
nonzero digits. -/
def nonZeroDigits : List Char := ['1', '2', '3', '4', '5', '6', '7', '8', '9']

/-- The UK domestic-to-international rewrite of normalize_number: when the
number starts with a single 0 and has 11 (or 10) characters with a nonzero
second character, the leading 0 is replaced by 44. Mirrors the nested if
statements of the source. -/
def ukRewrite (l : List Char) : List Char :=
  if l.head? = some '0' ∧ 10 ≤ l.length then
    if l.length = 11 ∧ l.getD 1 ' ' ∈ nonZeroDigits then
      '4' :: '4' :: l.tail
    else if l.length = 10 ∧ l.getD 1 ' ' ∈ nonZeroDigits then
      '4' :: '4' :: l.tail
    else l
  else l

/-- Removal of one leading plus sign, mirroring the startswith test of the
source. -/
def stripPlus (l : List Char) : List Char :=
  if l.head? = some '+' then l.tail else l

/-- Removal of a leading international 00, mirroring the startswith test of
the source. -/
def strip00 (l : List Char) : List Char :=
  if l.take 2 = ['0', '0'] then l.drop 2 else l

/-- The character-level pipeline of NumberMatcher.normalize_number: strip
characters that are neither digits nor plus signs, drop one leading plus,
drop a leading 00, then apply the UK domestic rewrite. -/
def normChars (l : List Char) : List Char :=
  ukRewrite (strip00 (stripPlus (l.filter keepChar)))

/-- NumberMatcher.normalize_number: returns the empty string for empty input,
otherwise runs the normalization pipeline. -/
def normalize_number (number : String) : String :=
  if number.isEmpty then "" else String.mk (normChars number.data)

/-- Fuelled glob matcher: the semantics of the anchored regular expression the
source compiles from a wildcard pattern, where a star expands to any sequence
of characters and every other pattern character must match verbatim. The fuel
argument only drives structural termination; globMatch supplies enough fuel
for the recursion to complete. -/
def globMatchFuel : Nat → List Char → List Char → Bool
  | 0, _, _ => false
  | _ + 1, [], [] => true
  | _ + 1, [], _ :: _ => false
  | fuel + 1, '*' :: ps, [] => globMatchFuel fuel ps []
  | fuel + 1, '*' :: ps, c :: cs =>
      globMatchFuel fuel ps (c :: cs) || globMatchFuel fuel ('*' :: ps) cs
  | _ + 1, _ :: _, [] => false
  | fuel + 1, p :: ps, c :: cs => p == c && globMatchFuel fuel ps cs

/-- Anchored glob match of a pattern against a string. Every recursive step of
globMatchFuel lowers the combined length of the two lists, so this fuel always
suffices. -/
def globMatch (pat s : List Char) : Bool :=
  globMatchFuel (pat.length + s.length + 1) pat s

/-- The matcher the source compiles for one pattern text: the pattern that is
a single star matches any non-empty string, a pattern containing a star is an
anchored glob with the other characters escaped verbatim, and a pattern with
no star is an exact match. Normalized numbers never contain a newline, so the
dot of the compiled regular expression coincides with an arbitrary-character
match here. -/
def patternMatches (pattern : String) (s : String) : Bool :=
  if pattern == "*" then decide (0 < s.length)
  else if pattern.data.contains '*' then globMatch pattern.data s.data
  else pattern == s

/-- The whitespace characters Python str.strip removes (its ASCII range):
space, tab, newline, carriage return, vertical tab and form feed. -/
def pySpace (c : Char) : Bool :=
  c == ' ' || c == '\t' || c == '\n' || c == '\r' || c == '\x0b' || c == '\x0c'

/-- Python str.strip with no argument: removal of leading and trailing
whitespace. -/
def pyStrip (s : String) : String :=
  String.mk (((s.data.dropWhile pySpace).reverse.dropWhile pySpace).reverse)

/-- NumberMatcher.load_patterns: keeps each entry stripped of surrounding
whitespace, discarding entries that are empty after stripping; the compiled
pattern list pairs each kept text with the matcher patternMatches derives from
it, so the loaded state is just the list of kept texts. -/
def load_patterns (pattern_list : List String) : List String :=
  pattern_list.filterMap fun p =>
    let t := pyStrip p
    if t.isEmpty then none else some t

/-- NumberMatcher.is_match: a falsy caller (none or the empty string) answers
immediately with no match; otherwise the caller is normalized, an empty
normalization answers with no match, and otherwise the compiled patterns are
scanned in load order for the first whose matcher accepts the normalized
number. -/
def is_match (patterns : List String) (caller_number : Option String) :
    Bool × Option String :=
  match caller_number with
  | none => (false, none)
  | some s =>
    if s.isEmpty then (false, none)
    else
      let normalized := normalize_number s
      if normalized.isEmpty then (false, none)
      else
        match patterns.find? (fun p => patternMatches p normalized) with
        | some p => (true, some p)
        | none => (false, none)

/-- NumberMatcher.get_patterns returns self.patterns.copy(); the heap model
for that copy is given with the APIClient one further below. -/
def get_patterns (patterns : List String) : List String := patterns

/-! ## APIClient (src/api_client.py) -/

/-- Parsed JSON values, the shapes the source can receive from response.json:
null, booleans, integers, strings, arrays and objects (an object is the
parsed dict, one entry per key). -/
inductive JValue where
  | jnull
  | jbool (b : Bool)
  | jnum (n : Int)
  | jstr (s : String)
  | jarr (elems : List JValue)
  | jobj (fields : List (String × JValue))

/-- Python truthiness of a parsed JSON value, as used by the comprehension
filter of the source on each extracted entry. -/
def jtruthy : JValue → Bool
  | .jnull => false
  | .jbool b => b
  | .jnum n => decide (n ≠ 0)
  | .jstr s => !s.isEmpty
  | .jarr l => !l.isEmpty
  | .jobj l => !l.isEmpty

mutual

/-- Python repr of a parsed JSON value, used by str on non-string values. -/
def pyRepr : JValue → String
  | .jnull => "None"
  | .jbool true => "True"
  | .jbool false => "False"
  | .jnum n => toString n
  | .jstr s => "'" ++ s ++ "'"
  | .jarr l => "[" ++ pyReprElems l ++ "]"
  | .jobj l => "\x7b" ++ pyReprFields l ++ "\x7d"

/-- Comma-separated reprs of the elements of a list. -/
def pyReprElems : List JValue → String
  | [] => ""
  | [x] => pyRepr x
  | x :: y :: xs => pyRepr x ++ ", " ++ pyReprElems (y :: xs)

/-- Comma-separated reprs of the entries of a dict. -/
def pyReprFields : List (String × JValue) → String
  | [] => ""
  | [(k, v)] => "'" ++ k ++ "': " ++ pyRepr v
  | (k, v) :: y :: xs => "'" ++ k ++ "': " ++ pyRepr v ++ ", " ++ pyReprFields (y :: xs)

end

/-- Python str of a parsed JSON value: strings unchanged, everything else its
repr. -/
def pyStr : JValue → String
  | .jstr s => s
  | v => pyRepr v

/-- The fallback scan of APIClient._extract_numbers over the conventional key
names: the first key present in the dict and bound to a list wins. -/
def firstListKey (fields : List (String × JValue)) : List String → Option (List JValue)
  | [] => none
  | k :: ks =>
    match List.lookup k fields with
    | some (.jarr l) => some l
    | _ => firstListKey fields ks

/-- APIClient._extract_numbers: a bare array is returned as is; from a dict,
the configured data key is tried first (only when bound to a list), then the
conventional keys data, numbers, valid_numbers, patterns; any other shape
raises ValueError, modelled as none. -/
def extract_numbers (dataKey : String) : JValue → Option (List JValue)
  | .jarr l => some l
  | .jobj fields =>
    match List.lookup dataKey fields with
    | some (.jarr l) => some l
    | _ => firstListKey fields ["data", "numbers", "valid_numbers", "patterns"]
  | _ => none

/-- Outcome of one HTTP round trip in APIClient._fetch: a transport error
(requests.RequestException, which raise_for_status also raises on a
non-success status code), a body that fails to parse as JSON, or a parsed
JSON body. -/
inductive FetchOutcome where
  | transportError
  | parseError
  | ok (body : JValue)

/-- The mutable state of an APIClient instance that _fetch touches, together
with the persisted cache file (none when absent). -/
structure APIState where
  numbers : List String
  lastFetch : Option Nat
  lastSuccess : Bool
  fetchCount : Nat
  errorCount : Nat
  cacheFile : Option (List String)

/-- APIClient._fetch: the fetch counter always advances; a transport error, a
parse error, or a ValueError from extract_numbers advances the error counter,
clears last_success and leaves numbers and the cache file untouched; a
successful extraction filters falsy entries, stringifies and strips the rest,
then replaces the in-memory list, records the fetch time and success, and
writes the cache file. -/
def fetchStep (dataKey : String) (now : Nat) (resp : FetchOutcome) (st : APIState) :
    Bool × APIState :=
  let st1 := { st with fetchCount := st.fetchCount + 1 }
  match resp with
  | .transportError =>
    (false, { st1 with errorCount := st1.errorCount + 1, lastSuccess := false })
  | .parseError =>
    (false, { st1 with errorCount := st1.errorCount + 1, lastSuccess := false })
  | .ok body =>
    match extract_numbers dataKey body with
    | none =>
      (false, { st1 with errorCount := st1.errorCount + 1, lastSuccess := false })
    | some raw =>
      let numbers := (raw.filter jtruthy).map (fun n => pyStrip (pyStr n))
      (true, { st1 with
                numbers := numbers
                lastFetch := some now
                lastSuccess := true
                cacheFile := some numbers })

/-- APIClient.get_numbers returns self._numbers.copy(); the heap model for
the copy is below. -/
def get_numbers (st : APIState) : List String := st.numbers

/-! ## GPIOHandler (src/gpio_handler.py) -/

/-- The state GPIOHandler.activate touches under its lock: the active flag
and the activation counter. -/
structure GPIOState where
  isActive : Bool
  activationCount : Nat

/-- GPIOHandler.activate: under the lock, an activation already in progress
is refused with no state change; otherwise the handler marks itself active,
advances the activation counter and accepts. -/
def activate (s : GPIOState) : Bool × GPIOState :=
  if s.isActive then (false, s)
  else (true, { isActive := true, activationCount := s.activationCount + 1 })

/-- Completion of GPIOHandler._activation_worker: whatever happened while
driving the pin, the finally block clears the active flag under the lock. -/
def activationWorkerFinish (s : GPIOState) : GPIOState :=
  { s with isActive := false }

/-! ## SIPHandlerPJSIP (src/sip_handler_pjsip.py) -/

/-- Call lifecycle states of the source CallState enum. -/
inductive CallState where
  | ringing
  | answered
  | ended
  deriving DecidableEq

/-- The source CallInfo dataclass: caller id, lifecycle state, creation
timestamp, validity verdict (False until computed) and matched pattern. -/
structure CallInfo where
  caller_id : String
  state : CallState
  timestamp : Nat
  is_valid : Bool
  matched_pattern : Option String
  deriving DecidableEq

/-- The environment one call handling run observes: whether the 180 Ringing
send raises, whether the remote disconnects during the ring wait, whether the
200 OK answer raises, whether the remote disconnects before the hangup step,
and whether the BYE hangup raises. A 180 failure and a hangup failure are
each caught where they occur and change no state, and a remote disconnect
before the hangup step merely skips the BYE, so only the first three fields
influence the resulting state. -/
structure CallEnv where
  ringingFails : Bool
  disconnectedDuringRing : Bool
  answerFails : Bool
  disconnectedBeforeHangup : Bool
  hangupFails : Bool

/-- The handler state _handle_incoming_call_sync touches: the call counter,
the valid-call counter, the call history and the queued GPIO callbacks. -/
structure SIPState where
  callCount : Nat
  validCallCount : Nat
  callHistory : List CallInfo
  pendingGpio : List String

/-- SIPHandlerPJSIP._handle_incoming_call_sync. The call counter advances on
entry and a CallInfo is created in RINGING. A remote disconnect during the
ring wait sets ENDED, appends the session and returns, after which the
function-level finally appends the same session again. A failing 200 OK
answer is logged and re-raised; the outer except catches it and the finally
appends the session still in RINGING. Otherwise the session reaches ANSWERED,
the hold wait runs, a BYE failure is caught with no effect, the state becomes
ENDED, and when a check_number callback is configured the verdict is
recorded, a valid caller advances the valid-call counter and, when an
on_valid_call callback is configured, queues a GPIO callback; the finally
then appends the finished session once. -/
def handleIncomingCallSync (checkNumber : Option (String → Bool × Option String))
    (hasOnValidCall : Bool) (env : CallEnv) (now : Nat) (st : SIPState)
    (callerId : String) : SIPState :=
  let callCount := st.callCount + 1
  let info0 : CallInfo :=
    { caller_id := callerId, state := .ringing, timestamp := now
      is_valid := false, matched_pattern := none }
  if env.disconnectedDuringRing then
    let info := { info0 with state := .ended }
    { st with callCount := callCount, callHistory := st.callHistory ++ [info, info] }
  else if env.answerFails then
    { st with callCount := callCount, callHistory := st.callHistory ++ [info0] }
  else
    let info2 := { info0 with state := .ended }
    match checkNumber with
    | none =>
      { st with callCount := callCount, callHistory := st.callHistory ++ [info2] }
    | some check =>
      let verdict := check callerId
      let info3 := { info2 with is_valid := verdict.1, matched_pattern := verdict.2 }
      let validCount :=
        if verdict.1 then st.validCallCount + 1 else st.validCallCount
      let pending :=
        if verdict.1 && hasOnValidCall then st.pendingGpio ++ [callerId]
        else st.pendingGpio
      { callCount := callCount, validCallCount := validCount
        callHistory := st.callHistory ++ [info3], pendingGpio := pending }

/-- SIPHandlerPJSIP.get_stats, the three counters of the snapshot: total
calls, valid calls, and invalid calls computed as their difference in exact
integer arithmetic. -/
def get_stats (st : SIPState) : Int × Int × Int :=
  ((st.callCount : Int), (st.validCallCount : Int),
    (st.callCount : Int) - (st.validCallCount : Int))

/-- Handler states reachable from the freshly constructed handler (all
counters zero, empty history) by runs of _handle_incoming_call_sync. -/
inductive ReachableSIP : SIPState → Prop where
  | init : ReachableSIP ⟨0, 0, [], []⟩
  | step (cn : Option (String → Bool × Option String)) (cb : Bool) (env : CallEnv)
      (now : Nat) (caller : String) {st : SIPState} :
      ReachableSIP st → ReachableSIP (handleIncomingCallSync cn cb env now st caller)

/-! ## Heap model for the copying getters

Python lists are mutable objects; NumberMatcher.get_patterns and
APIClient.get_numbers both return list.copy() of the internal list, a fresh
object the caller may mutate freely. The heap below makes object identity
explicit: a cell per list object, addressed by index, with the matcher or
client holding the address of its internal list. copy() is an allocation of a
fresh cell with the same contents; a caller mutation is an overwrite of the
cell it received. -/

/-- A heap of Python list-of-string objects, addressed by position. -/
abbrev HeapL := List (List String)

/-- Contents of the list object at an address. -/
def heapRead (h : HeapL) (a : Nat) : List String :=
  List.getD h a []

/-- In-place mutation of the list object at an address. -/
def heapWrite (h : HeapL) (a : Nat) (v : List String) : HeapL :=
  List.set h a v

/-- Allocation of a fresh list object, returning its address. -/
def heapAlloc (h : HeapL) (v : List String) : Nat × HeapL :=
  (List.length h, h ++ [v])

/-- NumberMatcher.get_patterns over the heap: self.patterns.copy() allocates
a fresh list with the contents of the internal one and returns its address. -/
def get_patternsH (h : HeapL) (r : Nat) : Nat × HeapL :=
  heapAlloc h (heapRead h r)

/-- APIClient.get_numbers over the heap: self._numbers.copy() under the lock,
likewise an allocation of a fresh list with the internal contents. -/
def get_numbersH (h : HeapL) (r : Nat) : Nat × HeapL :=
  heapAlloc h (heapRead h r)

/-- A sequence of caller mutations of the list object at one address. -/
def mutateSeq (a : Nat) (h : HeapL) (vs : List (List String)) : HeapL :=
  vs.foldl (fun hh v => heapWrite hh a v) h

/-! ## Theorems settling the claims -/

theorem find_first_index {α : Type} (q : α → Bool) :
    ∀ (l : List α) (a : α), l.find? q = some a →
      ∃ k : Nat, l[k]? = some a ∧ q a = true ∧
        ∀ j : Nat, j < k → ∀ b, l[j]? = some b → q b = false := by
  intro l
  induction l with
  | nil => intro a h; simp at h
  | cons x xs ih =>
    intro a h
    by_cases hx : q x
    · rw [List.find?_cons_of_pos _ hx] at h
      obtain rfl : x = a := by injection h
      exact ⟨0, by simp, hx, fun j hj => absurd hj (Nat.not_lt_zero j)⟩
    · rw [List.find?_cons_of_neg _ hx] at h
      obtain ⟨k, hget, hq, hfirst⟩ := ih a h
      refine ⟨k + 1, by simpa using hget, hq, ?_⟩
      intro j hj b hb
      cases j with
      | zero =>
        obtain rfl : x = b := by simpa using hb
        simpa using hx
      | succ j2 =>
        exact hfirst j2 (Nat.lt_of_succ_lt_succ hj) b (by simpa using hb)

theorem is_match_eq_true (ps : List String) (s p : String)
    (h : is_match ps (some s) = (true, some p)) :
    ps.find? (fun q => patternMatches q (normalize_number s)) = some p := by
  by_cases h1 : s.isEmpty
  · simp [is_match, h1] at h
  · by_cases h2 : (normalize_number s).isEmpty
    · simp [is_match, h1, h2] at h
    · rcases hf : ps.find? (fun q => patternMatches q (normalize_number s)) with _ | q
      · simp [is_match, h1, h2, hf] at h
      · simp [is_match, h1, h2, hf] at h
        rw [h]

/-- C1: for every loaded pattern list, is_match scans the compiled patterns
in load order and returns the first matching pattern text; with the patterns
441234567890, 441234 star and 44 star loaded, the exact first pattern wins
for +441234567890 even though both later wildcard patterns also match, the
area-code wildcard wins for +441234999999, and +33123456789 matches
nothing. -/
theorem c1_first_match_wins (ps : List String) (s p : String)
    (h : is_match ps (some s) = (true, some p)) :
    (∃ k : Nat, ps[k]? = some p ∧
        patternMatches p (normalize_number s) = true ∧
        ∀ j : Nat, j < k → ∀ q, ps[j]? = some q →
          patternMatches q (normalize_number s) = false) ∧
    is_match (load_patterns ["441234567890", "441234*", "44*"])
        (some "+441234567890") = (true, some "441234567890") ∧
    patternMatches "441234*" (normalize_number "+441234567890") = true ∧
    patternMatches "44*" (normalize_number "+441234567890") = true ∧
    is_match (load_patterns ["441234567890", "441234*", "44*"])
        (some "+441234999999") = (true, some "441234*") ∧
    is_match (load_patterns ["441234567890", "441234*", "44*"])
        (some "+33123456789") = (false, none) := by
  refine ⟨?_, by decide, by decide, by decide, by decide, by decide⟩
  exact find_first_index _ ps p (is_match_eq_true ps s p h)

/-- Witness for C1 at a concrete loaded list and caller. -/
theorem c1_first_match_wins_witness :
    ∃ k : Nat, (["44*"] : List String)[k]? = some "44*" ∧
      patternMatches "44*" (normalize_number "+441") = true ∧
      ∀ j : Nat, j < k → ∀ q, (["44*"] : List String)[j]? = some q →
        patternMatches q (normalize_number "+441") = false :=
  (c1_first_match_wins ["44*"] "+441" "44*" (by decide)).1

/-- C8: every is_match answer is either the first matching pattern, drawn
from the currently loaded set, or a definite non-match; and a none caller or
an empty caller never matches, whatever is loaded, including the loaded
single-star set. -/
theorem c8_match_from_loaded_set (P : List String) (s : String) :
    ((∃ p, is_match (load_patterns P) (some s) = (true, some p) ∧
        p ∈ load_patterns P) ∨
      is_match (load_patterns P) (some s) = (false, none)) ∧
    is_match (load_patterns P) (some "") = (false, none) ∧
    is_match (load_patterns P) none = (false, none) ∧
    is_match (load_patterns ["*"]) (some "") = (false, none) ∧
    is_match (load_patterns ["*"]) none = (false, none) := by
  refine ⟨?_, rfl, rfl, rfl, rfl⟩
  by_cases h1 : s.isEmpty
  · exact Or.inr (by simp [is_match, h1])
  · by_cases h2 : (normalize_number s).isEmpty
    · exact Or.inr (by simp [is_match, h1, h2])
    · rcases hf : (load_patterns P).find?
          (fun q => patternMatches q (normalize_number s)) with _ | p
      · exact Or.inr (by simp [is_match, h1, h2, hf])
      · exact Or.inl ⟨p, by simp [is_match, h1, h2, hf],
          List.mem_of_find?_eq_some hf⟩

/-- Witness for C8 at a concrete loaded list and caller. -/
theorem c8_match_from_loaded_set_witness :
    is_match (load_patterns ["*"]) (some "") = (false, none) :=
  (c8_match_from_loaded_set ["*"] "+441234567890").2.2.2.1

/-- C7: with the single pattern 441844220022 loaded, the UK domestic caller
01844220022 is rewritten by normalization to the international form
441844220022 and matches. -/
theorem c7_domestic_rewrite_scenario :
    is_match (load_patterns ["441844220022"]) (some "01844220022") =
      (true, some "441844220022") ∧
    normalize_number "01844220022" = "441844220022" := by decide

/-- C5, recorded divergence: normalize_number keeps a plus sign that is not
in leading position, because the stripping step retains every plus sign while
only one leading plus is removed afterwards; the result for the input 1+2 is
1+2, which is not digits-only, contradicting the function docstring. -/
theorem c5_interior_plus_kept :
    normalize_number "1+2" = "1+2" ∧
    '+' ∈ (normalize_number "1+2").data ∧
    Char.isDigit '+' = false := by decide

/-- C6, counterexample: normalization is not idempotent. The input
0000123456789 normalizes to 00123456789 (only one leading 00 is removed),
and normalizing that again removes another 00, giving 123456789. -/
theorem c6_not_idempotent :
    normalize_number (normalize_number "0000123456789") ≠
      normalize_number "0000123456789" ∧
    normalize_number "0000123456789" = "00123456789" ∧
    normalize_number "00123456789" = "123456789" := by decide

theorem mem_ukRewrite {c : Char} {l : List Char} (h : c ∈ ukRewrite l) :
    c = '4' ∨ c ∈ l := by
  unfold ukRewrite at h
  split at h
  · split at h
    · rcases List.mem_cons.mp h with h4 | h
      · exact Or.inl h4
      · rcases List.mem_cons.mp h with h4 | h
        · exact Or.inl h4
        · exact Or.inr (List.mem_of_mem_tail h)
    · split at h
      · rcases List.mem_cons.mp h with h4 | h
        · exact Or.inl h4
        · rcases List.mem_cons.mp h with h4 | h
          · exact Or.inl h4
          · exact Or.inr (List.mem_of_mem_tail h)
      · exact Or.inr h
  · exact Or.inr h

theorem keepChar_of_mem_normChars {c : Char} {l : List Char}
    (h : c ∈ normChars l) : keepChar c = true := by
  unfold normChars at h
  rcases mem_ukRewrite h with rfl | h2
  · decide
  · have h3 : c ∈ stripPlus (l.filter keepChar) := by
      unfold strip00 at h2
      split at h2
      · exact List.mem_of_mem_drop h2
      · exact h2
    have h4 : c ∈ l.filter keepChar := by
      unfold stripPlus at h3
      split at h3
      · exact List.mem_of_mem_tail h3
      · exact h3
    exact (List.mem_filter.mp h4).2

theorem ukRewrite_idem (l : List Char) :
    ukRewrite (ukRewrite l) = ukRewrite l := by
  have hcase : ukRewrite l = l ∨ ∃ t, ukRewrite l = '4' :: t := by
    unfold ukRewrite
    split
    · split
      · exact Or.inr ⟨_, rfl⟩
      · split
        · exact Or.inr ⟨_, rfl⟩
        · exact Or.inl rfl
    · exact Or.inl rfl
  rcases hcase with he | ⟨t, ht⟩
  · rw [he]
    exact he
  · rw [ht]
    unfold ukRewrite
    rw [if_neg]
    intro hc
    have h4 : ('4' : Char) = '0' := by simpa using hc.1
    exact absurd h4 (by decide)

theorem stripPlus_of_ne (l : List Char) (h : l.head? ≠ some '+') :
    stripPlus l = l := by
  unfold stripPlus
  exact if_neg h

theorem strip00_of_ne (l : List Char) (h : l.take 2 ≠ ['0', '0']) :
    strip00 l = l := by
  unfold strip00
  exact if_neg h

theorem normChars_idem (l : List Char)
    (h1 : (normChars l).head? ≠ some '+')
    (h2 : (normChars l).take 2 ≠ ['0', '0']) :
    normChars (normChars l) = normChars l := by
  have hf : (normChars l).filter keepChar = normChars l :=
    List.filter_eq_self.mpr fun a ha => keepChar_of_mem_normChars ha
  show ukRewrite (strip00 (stripPlus ((normChars l).filter keepChar))) = normChars l
  rw [hf, stripPlus_of_ne _ h1, strip00_of_ne _ h2]
  show ukRewrite (ukRewrite (strip00 (stripPlus (l.filter keepChar)))) =
    ukRewrite (strip00 (stripPlus (l.filter keepChar)))
  exact ukRewrite_idem _

theorem normalize_number_data (s : String) :
    (normalize_number s).data = normChars s.data := by
  unfold normalize_number
  by_cases h : s.isEmpty
  · rw [if_pos h]
    obtain rfl : s = "" := (String.isEmpty_iff s).mp h
    decide
  · rw [if_neg h]

/-- C6, amended: a second normalization can differ from the first only by
stripping a leading plus or a further leading international 00 that the
first pass left in place; whenever the first result neither starts with a
plus nor with 00, normalization is idempotent. -/
theorem c6_idempotent_unless_leading_plus_or_00 (s : String)
    (h1 : (normalize_number s).data.head? ≠ some '+')
    (h2 : (normalize_number s).data.take 2 ≠ ['0', '0']) :
    normalize_number (normalize_number s) = normalize_number s := by
  apply String.ext
  rw [normalize_number_data (normalize_number s), normalize_number_data s]
  rw [normalize_number_data s] at h1 h2
  exact normChars_idem s.data h1 h2

/-- Witness for the amended C6 at a concrete caller number. -/
theorem c6_idempotent_witness :
    (normalize_number "+441234567890").data.head? ≠ some '+' ∧
    (normalize_number "+441234567890").data.take 2 ≠ ['0', '0'] ∧
    normalize_number (normalize_number "+441234567890") =
      normalize_number "+441234567890" :=
  ⟨by decide, by decide,
    c6_idempotent_unless_leading_plus_or_00 "+441234567890" (by decide) (by decide)⟩

theorem fetchStep_failure (dataKey : String) (now : Nat) (resp : FetchOutcome)
    (st : APIState) (h : (fetchStep dataKey now resp st).1 = false) :
    (fetchStep dataKey now resp st).2 =
      { st with
          fetchCount := st.fetchCount + 1
          errorCount := st.errorCount + 1
          lastSuccess := false } := by
  cases resp with
  | transportError => rfl
  | parseError => rfl
  | ok body =>
    rcases hx : extract_numbers dataKey body with _ | raw
    · simp [fetchStep, hx]
    · simp [fetchStep, hx] at h

/-- C2: every failed fetch attempt (transport error, non-success status,
malformed JSON, or a body from which no list can be extracted) advances the
error counter by exactly one, leaves the in-memory number list and the
persisted cache file untouched and clears last_success; in particular two
consecutive failed fetches over a five-entry list leave get_numbers at those
five entries with the error counter advanced by two. -/
theorem c2_fetch_failure_preserves_state (dataKey : String) (now : Nat)
    (resp : FetchOutcome) (st : APIState)
    (h : (fetchStep dataKey now resp st).1 = false) :
    ((fetchStep dataKey now resp st).2.errorCount = st.errorCount + 1 ∧
      (fetchStep dataKey now resp st).2.numbers = st.numbers ∧
      (fetchStep dataKey now resp st).2.cacheFile = st.cacheFile ∧
      (fetchStep dataKey now resp st).2.fetchCount = st.fetchCount + 1 ∧
      (fetchStep dataKey now resp st).2.lastSuccess = false ∧
      (fetchStep dataKey now resp st).2.lastFetch = st.lastFetch) ∧
    (∀ st0 : APIState, ∀ r1 r2 : FetchOutcome, ∀ n1 n2 : Nat,
      (fetchStep dataKey n1 r1 st0).1 = false →
      (fetchStep dataKey n2 r2 (fetchStep dataKey n1 r1 st0).2).1 = false →
      get_numbers (fetchStep dataKey n2 r2 (fetchStep dataKey n1 r1 st0).2).2 =
        get_numbers st0 ∧
      (fetchStep dataKey n2 r2 (fetchStep dataKey n1 r1 st0).2).2.errorCount =
        st0.errorCount + 2) := by
  constructor
  · rw [fetchStep_failure dataKey now resp st h]
    exact ⟨rfl, rfl, rfl, rfl, rfl, rfl⟩
  · intro st0 r1 r2 n1 n2 h1 h2
    rw [fetchStep_failure dataKey n2 r2 _ h2, fetchStep_failure dataKey n1 r1 _ h1]
    exact ⟨rfl, rfl⟩

/-- Witness for C2: two consecutive failed fetches over a five-entry list. -/
theorem c2_fetch_failure_witness :
    get_numbers (fetchStep "data" 1 FetchOutcome.parseError
        (fetchStep "data" 0 FetchOutcome.transportError
          ⟨["n1", "n2", "n3", "n4", "n5"], none, true, 0, 0,
            some ["n1", "n2", "n3", "n4", "n5"]⟩).2).2 =
      ["n1", "n2", "n3", "n4", "n5"] ∧
    (fetchStep "data" 1 FetchOutcome.parseError
        (fetchStep "data" 0 FetchOutcome.transportError
          ⟨["n1", "n2", "n3", "n4", "n5"], none, true, 0, 0,
            some ["n1", "n2", "n3", "n4", "n5"]⟩).2).2.errorCount = 0 + 2 :=
  (c2_fetch_failure_preserves_state "data" 0 FetchOutcome.transportError
      ⟨["n1", "n2", "n3", "n4", "n5"], none, true, 0, 0,
        some ["n1", "n2", "n3", "n4", "n5"]⟩ rfl).2
    ⟨["n1", "n2", "n3", "n4", "n5"], none, true, 0, 0,
      some ["n1", "n2", "n3", "n4", "n5"]⟩
    FetchOutcome.transportError FetchOutcome.parseError 0 1 rfl rfl

/-- C3: activate refuses and changes nothing while an activation is in
progress, and otherwise accepts, marks the guard active and advances the
activation counter by exactly one; hence of two activate calls with no
completion in between exactly the first is accepted and the counter grows by
exactly one. -/
theorem c3_activate_single_flight (s : GPIOState) :
    (s.isActive = true → activate s = (false, s)) ∧
    (s.isActive = false →
      activate s = (true, ⟨true, s.activationCount + 1⟩)) ∧
    (s.isActive = false →
      (activate s).1 = true ∧
      (activate (activate s).2).1 = false ∧
      (activate (activate s).2).2 = (activate s).2 ∧
      (activate (activate s).2).2.activationCount = s.activationCount + 1) := by
  refine ⟨fun h => ?_, fun h => ?_, fun h => ?_⟩
  · simp [activate, h]
  · simp [activate, h]
  · simp [activate, h]

/-- Witness for C3 from the idle guard. -/
theorem c3_activate_single_flight_witness :
    (activate ⟨false, 5⟩).1 = true ∧
    (activate (activate ⟨false, 5⟩).2).1 = false ∧
    (activate (activate ⟨false, 5⟩).2).2 = (activate ⟨false, 5⟩).2 ∧
    (activate (activate ⟨false, 5⟩).2).2.activationCount = 5 + 1 :=
  (c3_activate_single_flight ⟨false, 5⟩).2.2 rfl

/-- C4, counterexample: when the 200 OK answer command fails, the handler
logs and re-raises, the outer handler swallows the error, and the finally
block appends the session while its state is still RINGING, not ENDED. -/
theorem c4_answer_failure_records_ringing :
    (handleIncomingCallSync none false ⟨false, false, true, false, false⟩ 0
        ⟨0, 0, [], []⟩ "+441234567890").callHistory.map CallInfo.state =
      [CallState.ringing] ∧
    CallState.ringing ≠ CallState.ended := by decide

/-- C4, amended: errors from the answer and hangup commands never escape the
session handler and the session is always appended to the call history; a
hangup failure (or a remote disconnect) still leaves every recorded entry
ENDED, but an answer failure leaves the single recorded entry in RINGING. -/
theorem c4_session_always_recorded (cn : Option (String → Bool × Option String))
    (cb : Bool) (env : CallEnv) (now : Nat) (st : SIPState) (caller : String) :
    ∃ new : List CallInfo, new ≠ [] ∧
      (handleIncomingCallSync cn cb env now st caller).callHistory =
        st.callHistory ++ new ∧
      ((env.disconnectedDuringRing = true ∨ env.answerFails = false) →
        ∀ e ∈ new, e.state = CallState.ended) ∧
      (env.disconnectedDuringRing = false → env.answerFails = true →
        new.map CallInfo.state = [CallState.ringing]) := by
  obtain ⟨rf, dr, af, db, hf⟩ := env
  cases dr with
  | true =>
    refine ⟨[⟨caller, .ended, now, false, none⟩, ⟨caller, .ended, now, false, none⟩],
      by simp, by simp [handleIncomingCallSync], ?_, ?_⟩
    · intro _ e he
      rcases List.mem_cons.mp he with rfl | he
      · rfl
      · rcases List.mem_cons.mp he with rfl | he
        · rfl
        · simp at he
    · intro hd
      simp at hd
  | false =>
    cases af with
    | true =>
      refine ⟨[⟨caller, .ringing, now, false, none⟩],
        by simp, by simp [handleIncomingCallSync], ?_, fun _ _ => by simp⟩
      intro hcase
      rcases hcase with hd | ha
      · simp at hd
      · simp at ha
    | false =>
      rcases cn with _ | check
      · refine ⟨[⟨caller, .ended, now, false, none⟩],
          by simp, by simp [handleIncomingCallSync], ?_, fun _ ha => by simp at ha⟩
        intro _ e he
        rcases List.mem_cons.mp he with rfl | he
        · rfl
        · simp at he
      · refine ⟨[⟨caller, .ended, now, (check caller).1, (check caller).2⟩],
          by simp, by simp [handleIncomingCallSync], ?_, fun _ ha => by simp at ha⟩
        intro _ e he
        rcases List.mem_cons.mp he with rfl | he
        · rfl
        · simp at he

/-- Witness for the amended C4: a failing hangup still records the session
as ENDED, exactly once. -/
theorem c4_session_always_recorded_witness :
    ∃ new : List CallInfo, new ≠ [] ∧
      (handleIncomingCallSync none false ⟨false, false, false, false, true⟩ 0
          ⟨0, 0, [], []⟩ "+441234567890").callHistory = [] ++ new ∧
      (((⟨false, false, false, false, true⟩ : CallEnv).disconnectedDuringRing = true ∨
          (⟨false, false, false, false, true⟩ : CallEnv).answerFails = false) →
        ∀ e ∈ new, e.state = CallState.ended) ∧
      ((⟨false, false, false, false, true⟩ : CallEnv).disconnectedDuringRing = false →
        (⟨false, false, false, false, true⟩ : CallEnv).answerFails = true →
        new.map CallInfo.state = [CallState.ringing]) :=
  c4_session_always_recorded none false ⟨false, false, false, false, true⟩ 0
    ⟨0, 0, [], []⟩ "+441234567890"

theorem handle_step_counts (cn : Option (String → Bool × Option String))
    (cb : Bool) (env : CallEnv) (now : Nat) (st : SIPState) (caller : String) :
    (handleIncomingCallSync cn cb env now st caller).callCount = st.callCount + 1 ∧
    ((handleIncomingCallSync cn cb env now st caller).validCallCount =
        st.validCallCount ∨
      (handleIncomingCallSync cn cb env now st caller).validCallCount =
        st.validCallCount + 1) := by
  obtain ⟨rf, dr, af, db, hf⟩ := env
  cases dr <;> cases af <;> rcases cn with _ | check <;>
    simp [handleIncomingCallSync]

theorem reachable_valid_le (st : SIPState) (h : ReachableSIP st) :
    st.validCallCount ≤ st.callCount := by
  induction h with
  | init => exact Nat.le_refl 0
  | step cn cb env now caller hprev ih =>
    rename_i stx
    obtain ⟨h1, h2⟩ := handle_step_counts cn cb env now stx caller
    rcases h2 with h2 | h2 <;> omega

/-- C9: on every reachable handler state the stats snapshot satisfies
total = valid + invalid and 0 ≤ valid ≤ total, because each handled call
advances the total by exactly one, advances the valid counter at most once,
and the invalid figure is computed as the difference. -/
theorem c9_stats_consistent (st : SIPState) (h : ReachableSIP st) :
    (get_stats st).1 = (get_stats st).2.1 + (get_stats st).2.2 ∧
    0 ≤ (get_stats st).2.1 ∧
    (get_stats st).2.1 ≤ (get_stats st).1 ∧
    ∀ (cn : Option (String → Bool × Option String)) (cb : Bool) (env : CallEnv)
      (now : Nat) (caller : String),
      (handleIncomingCallSync cn cb env now st caller).callCount =
        st.callCount + 1 ∧
      ((handleIncomingCallSync cn cb env now st caller).validCallCount =
          st.validCallCount ∨
        (handleIncomingCallSync cn cb env now st caller).validCallCount =
          st.validCallCount + 1) := by
  have hle := reachable_valid_le st h
  refine ⟨?_, ?_, ?_, fun cn cb env now caller =>
    handle_step_counts cn cb env now st caller⟩
  · simp [get_stats]
  · simp [get_stats]
  · simp [get_stats]
    omega

/-- Witness for C9 at the freshly constructed handler. -/
theorem c9_stats_consistent_witness :
    (get_stats ⟨0, 0, [], []⟩).1 =
      (get_stats ⟨0, 0, [], []⟩).2.1 + (get_stats ⟨0, 0, [], []⟩).2.2 :=
  (c9_stats_consistent ⟨0, 0, [], []⟩ ReachableSIP.init).1

theorem heapRead_alloc (h : HeapL) (v : List String) :
    heapRead (h ++ [v]) h.length = v := by
  simp [heapRead, List.getElem?_concat_length]

theorem heapRead_append_lt (h : HeapL) (v : List String) (r : Nat)
    (hr : r < h.length) : heapRead (h ++ [v]) r = heapRead h r := by
  simp [heapRead, List.getElem?_append_left hr]

theorem heapRead_write_ne (hh : HeapL) (a : Nat) (v : List String) (r : Nat)
    (hne : a ≠ r) : heapRead (heapWrite hh a v) r = heapRead hh r := by
  simp [heapRead, heapWrite, List.getElem?_set_ne hne]

theorem heapRead_mutateSeq_ne (a r : Nat) (hne : a ≠ r)
    (vs : List (List String)) :
    ∀ hh : HeapL, heapRead (mutateSeq a hh vs) r = heapRead hh r := by
  induction vs with
  | nil => intro hh; rfl
  | cons v vs ih =>
    intro hh
    show heapRead (mutateSeq a (heapWrite hh a v) vs) r = heapRead hh r
    rw [ih (heapWrite hh a v), heapRead_write_ne hh a v r hne]

/-- C10: get_patterns and get_numbers return freshly allocated copies; any
sequence of caller mutations of the returned list leaves the internal list
unchanged, leaves subsequent is_match answers unchanged, and a later
get_patterns or get_numbers still returns the original contents. -/
theorem c10_copies_isolate_state (h : HeapL) (r : Nat) (hr : r < h.length)
    (vs : List (List String)) (s : Option String) :
    heapRead (get_patternsH h r).2 (get_patternsH h r).1 = heapRead h r ∧
    heapRead (mutateSeq (get_patternsH h r).1 (get_patternsH h r).2 vs) r =
      heapRead h r ∧
    is_match (heapRead (mutateSeq (get_patternsH h r).1 (get_patternsH h r).2 vs) r) s =
      is_match (heapRead h r) s ∧
    heapRead
        (get_patternsH (mutateSeq (get_patternsH h r).1 (get_patternsH h r).2 vs) r).2
        (get_patternsH (mutateSeq (get_patternsH h r).1 (get_patternsH h r).2 vs) r).1 =
      heapRead h r ∧
    heapRead (get_numbersH h r).2 (get_numbersH h r).1 = heapRead h r ∧
    heapRead (mutateSeq (get_numbersH h r).1 (get_numbersH h r).2 vs) r =
      heapRead h r := by
  have hne : h.length ≠ r := Nat.ne_of_gt hr
  have hmut : heapRead (mutateSeq h.length (h ++ [heapRead h r]) vs) r = heapRead h r := by
    rw [heapRead_mutateSeq_ne h.length r hne vs, heapRead_append_lt h _ r hr]
  refine ⟨heapRead_alloc h (heapRead h r), hmut,
    congrArg (fun l => is_match l s) hmut, ?_,
    heapRead_alloc h (heapRead h r), hmut⟩
  show heapRead
      (mutateSeq h.length (h ++ [heapRead h r]) vs ++
        [heapRead (mutateSeq h.length (h ++ [heapRead h r]) vs) r])
      (mutateSeq h.length (h ++ [heapRead h r]) vs).length = heapRead h r
  rw [heapRead_alloc, hmut]

/-- Witness for C10 at a concrete one-pattern heap. -/
theorem c10_copies_isolate_state_witness :
    heapRead (mutateSeq (get_patternsH [["44*"]] 0).1
        (get_patternsH [["44*"]] 0).2 [["9"]]) 0 =
      heapRead [["44*"]] 0 :=
  (c10_copies_isolate_state [["44*"]] 0 (by decide) [["9"]] (some "+44")).2.1

end SipSpec
